import Mathlib

/-!
Verification of the weight-calibration engine in
`tmd/areas/create_area_weights.py` (PSLmodels/tax-microdata).

The Python code is shallowly embedded over exact rational arithmetic:
numpy float vectors become `List ℚ`, dataframes become lists of records,
fatal assertions become `Except String` error results, and the external
L-BFGS-B solver is abstracted as an oracle function supplied to the
regularization loop.  Matrices are stored column-wise: the records-by-targets
target matrix produced by `prepared_data` is a list of per-target columns,
so entry (i, j) of the matrix is element i of column j.
-/

/-! ## Basic vector operations -/

/-- Dot product of two rational vectors (`np.dot` on 1-D arrays). -/
def dotprod (u v : List ℚ) : ℚ := (List.zipWith (· * ·) u v).sum

/-- Matrix-vector product `A @ x` where `A` is stored as a list of rows. -/
def matVec (A : List (List ℚ)) (x : List ℚ) : List ℚ :=
  A.map (fun row => dotprod row x)

/-- Elementwise vector subtraction. -/
def vecSub (u v : List ℚ) : List ℚ := List.zipWith (· - ·) u v

/-! ## Objective function (source: `objective_function`, lines 339-348)

`objective_function(x, *args)` computes
`jnp.sum(jnp.square(A @ x - b)) + delta * jnp.sum(jnp.square(x - 1.0))`. -/

/-- Embedding of `objective_function` from the source: the sum of squares of
`A @ x - b` plus `delta` times the sum of squares of the elementwise `x - 1`. -/
def objective_function (x : List ℚ) (A : List (List ℚ)) (b : List ℚ) (delta : ℚ) : ℚ :=
  let ssq_target_deviations := ((vecSub (matVec A x) b).map (fun c => c ^ 2)).sum
  let ssq_weight_deviations := ((x.map (fun xi => xi - 1)).map (fun c => c ^ 2)).sum
  ssq_target_deviations + delta * ssq_weight_deviations

/-- Squared Euclidean norm written from the spec: the sum of the squared
components of a vector. -/
def spec_normSq (v : List ℚ) : ℚ := (v.map (fun c => c * c)).sum

/-- All-ones vector of a given length, used by the spec's `x − 1` term. -/
def onesVec (n : ℕ) : List ℚ := List.replicate n 1

lemma zipWith_replicate_right (f : ℚ → ℚ → ℚ) (a : ℚ) :
    ∀ l : List ℚ, List.zipWith f l (List.replicate l.length a) = l.map (fun c => f c a) := by
  intro l
  induction l with
  | nil => rfl
  | cons x xs ih => simp [List.replicate_succ, ih]

/-- C1: for every multiplier vector x, matrix A, target vector b, and
regularization strength delta ≥ 0, `objective_function x A b delta` equals
`‖A·x − b‖² + δ·‖x − 1‖²` where `‖·‖²` is the sum of squared components and
`x − 1` subtracts the all-ones vector componentwise. -/
theorem objective_function_eq_spec (x : List ℚ) (A : List (List ℚ)) (b : List ℚ)
    (delta : ℚ) (hdelta : 0 ≤ delta) :
    objective_function x A b delta =
      spec_normSq (vecSub (matVec A x) b) +
        delta * spec_normSq (vecSub x (onesVec x.length)) := by
  unfold objective_function spec_normSq onesVec
  simp only [vecSub]
  rw [zipWith_replicate_right]
  simp only [pow_two]

/-- Witness for C1 at a concrete input: x = [2], A = [[3]], b = [1], δ = 1/2. -/
theorem objective_function_eq_spec_witness :
    objective_function [2] [[3]] [1] (1/2) =
      spec_normSq (vecSub (matVec [[3]] [2]) [1]) +
        (1/2) * spec_normSq (vecSub [2] (onesVec 1)) :=
  objective_function_eq_spec [2] [[3]] [1] (1/2) (by norm_num)

/-! ## Data model (source: `prepared_data`, lines 186-256)

A microdata record is a pandas dataframe row: a total assignment of rational
values to column names.  A target row carries the seven columns of an area
targets CSV file (`varname, count, scope, agilo, agihi, fstatus, target`);
the three code columns are integers per the data contract. -/

/-- A microdata record: columns `s006` (national weight), `XTOT`
(total persons), `data_source` (1 = PUF, 0 = CPS), `c00100` (adjusted
income), `MARS` (filing status), and any target variable, all accessed by
column name as in a dataframe row. -/
abbrev VarRecord := String → ℚ

/-- One row of an area targets CSV file. -/
structure TargetRow where
  varname : String
  count : ℤ
  scope : ℤ
  agilo : ℚ
  agihi : ℚ
  fstatus : ℤ
  target : ℚ

/-- National population estimate `(vardf.s006 * vardf.XTOT).sum()`. -/
def national_population (vardf : List VarRecord) : ℚ :=
  (vardf.map (fun r => r "s006" * r "XTOT")).sum

/-- Zero-floored target value: the code replaces a supplied target of 0 by
1.0 before taking its reciprocal (`if unscaled_target == 0: 1.0`). -/
def adj_target (row : TargetRow) : ℚ :=
  if row.target = 0 then 1 else row.target

/-- Scaled target appended to `ta_list`: `unscaled_target * scale` where
`scale = 1.0 / unscaled_target`. -/
def scaled_target (row : TargetRow) : ℚ :=
  adj_target row * (1 / adj_target row)

/-- Record mask for one target row: product of the scope filter, the
half-open income-band indicator `agilo <= c00100 < agihi`, and the
filing-status filter, exactly as the code multiplies `mask`. -/
def mask_val (row : TargetRow) (r : VarRecord) : ℚ :=
  (if row.scope = 1 then (if r "data_source" = 1 then 1 else 0)
   else if row.scope = 2 then (if r "data_source" = 0 then 1 else 0)
   else 1) *
  (if row.agilo ≤ r "c00100" ∧ r "c00100" < row.agihi then 1 else 0) *
  (if 0 < row.fstatus then (if r "MARS" = (row.fstatus : ℚ) then 1 else 0) else 1)

/-- Unmasked variable value for one target row: the raw variable when
`count = 0`, the indicator of positivity when `count = 1`. -/
def unmasked_val (row : TargetRow) (r : VarRecord) : ℚ :=
  if row.count = 0 then r row.varname
  else if 0 < r row.varname then 1 else 0

/-- One entry of a target-matrix column:
`mask * unmasked_varray * scale` evaluated at one record. -/
def row_entry (row : TargetRow) (r : VarRecord) : ℚ :=
  mask_val row r * unmasked_val row r * (1 / adj_target row)

/-- Validity of the three code columns of a target row, as asserted by the
code (`count` in [0,1], `scope` in [0,2], `fstatus` in [0,5]). -/
def ranges_ok (row : TargetRow) : Prop :=
  (0 ≤ row.count ∧ row.count ≤ 1) ∧
    (0 ≤ row.scope ∧ row.scope ≤ 2) ∧
    (0 ≤ row.fstatus ∧ row.fstatus ≤ 5)

instance (row : TargetRow) : Decidable (ranges_ok row) :=
  inferInstanceAs (Decidable ((_ ∧ _) ∧ (_ ∧ _) ∧ (_ ∧ _)))

/-- Population-target convention asserted for the distinguished row
(`row_num == 2`, the first data row of the CSV file): variable `XTOT`,
raw value, unrestricted scope, effectively unbounded income range, and no
filing-status filter. -/
def pop_row_check (row : TargetRow) : Prop :=
  row.varname = "XTOT" ∧ row.count = 0 ∧ row.scope = 0 ∧
    row.agilo < -(8 * 10 ^ 99) ∧ 8 * 10 ^ 99 < row.agihi ∧ row.fstatus = 0

instance (row : TargetRow) : Decidable (pop_row_check row) :=
  inferInstanceAs (Decidable (_ ∧ _ ∧ _ ∧ _ ∧ _ ∧ _))

/-- Processing of a single target row: the three range assertions are fatal,
otherwise the row yields its target-matrix column and scaled target. -/
def process_row (vardf : List VarRecord) (row : TargetRow) :
    Except String (List ℚ × ℚ) :=
  if 0 ≤ row.count ∧ row.count ≤ 1 then
    if 0 ≤ row.scope ∧ row.scope ≤ 2 then
      if 0 ≤ row.fstatus ∧ row.fstatus ≤ 5 then
        Except.ok (vardf.map (row_entry row), scaled_target row)
      else Except.error "fstatus value not in [0,5] range"
    else Except.error "scope value not in [0,2] range"
  else Except.error "count value not in [0,1] range"

/-- Row-by-row loop of `prepared_data`, accumulating `tm_tuple` and
`ta_list`. -/
def prepared_rows (vardf : List VarRecord) :
    List TargetRow → Except String (List (List ℚ) × List ℚ)
  | [] => Except.ok ([], [])
  | row :: rest =>
    match process_row vardf row with
    | Except.error e => Except.error e
    | Except.ok (col, st) =>
      match prepared_rows vardf rest with
      | Except.error e => Except.error e
      | Except.ok (cols, sts) => Except.ok (col :: cols, st :: sts)

/-- Final rescaling constant of `prepared_data` (`scale_factor = 1.0`). -/
def scale_factor : ℚ := 1

/-- Embedding of `prepared_data`: returns the target matrix (stored as a
list of per-target columns of the records-by-targets matrix), the target
array, and the initial weights scale.  The assertion failures of the code
are error results; an empty target file (which would make `np.vstack` raise
and leave `initial_weights_scale` unbound) is likewise an error. -/
def prepared_data (vardf : List VarRecord) :
    List TargetRow → Except String (List (List ℚ) × List ℚ × ℚ)
  | [] => Except.error "no target rows"
  | first :: rest =>
    if pop_row_check first then
      match prepared_rows vardf (first :: rest) with
      | Except.error e => Except.error e
      | Except.ok (cols, sts) =>
          Except.ok
            (cols.map (List.map (fun c => c * scale_factor)),
             sts.map (fun c => c * scale_factor),
             first.target / national_population vardf)
    else Except.error "does not contain the area population target"

/-! ## Extraction lemmas for `prepared_data` -/

lemma process_row_eq_ok_of (vardf : List VarRecord) (row : TargetRow)
    (h : ranges_ok row) :
    process_row vardf row =
      Except.ok (vardf.map (row_entry row), scaled_target row) := by
  obtain ⟨h1, h2, h3⟩ := h
  unfold process_row
  rw [if_pos h1, if_pos h2, if_pos h3]

lemma process_row_ok_inv (vardf : List VarRecord) (row : TargetRow)
    (p : List ℚ × ℚ) (h : process_row vardf row = Except.ok p) :
    ranges_ok row ∧ p = (vardf.map (row_entry row), scaled_target row) := by
  unfold process_row at h
  split_ifs at h with h1 h2 h3
  exact ⟨⟨h1, h2, h3⟩, (Except.ok.injEq _ _ ▸ h).symm⟩

lemma prepared_rows_eq_ok_of (vardf : List VarRecord) :
    ∀ tdf : List TargetRow, (∀ row ∈ tdf, ranges_ok row) →
      prepared_rows vardf tdf =
        Except.ok (tdf.map (fun row => vardf.map (row_entry row)),
                   tdf.map scaled_target) := by
  intro tdf
  induction tdf with
  | nil => intro _; rfl
  | cons row rest ih =>
    intro hall
    have hrow : ranges_ok row := hall row (List.mem_cons_self _ _)
    have hrest : ∀ r ∈ rest, ranges_ok r :=
      fun r hr => hall r (List.mem_cons_of_mem _ hr)
    unfold prepared_rows
    rw [process_row_eq_ok_of vardf row hrow, ih hrest]
    rfl

lemma prepared_rows_ok_inv (vardf : List VarRecord) :
    ∀ (tdf : List TargetRow) (cols : List (List ℚ)) (sts : List ℚ),
      prepared_rows vardf tdf = Except.ok (cols, sts) →
      (∀ row ∈ tdf, ranges_ok row) ∧
        cols = tdf.map (fun row => vardf.map (row_entry row)) ∧
        sts = tdf.map scaled_target := by
  intro tdf
  induction tdf with
  | nil =>
    intro cols sts h
    unfold prepared_rows at h
    obtain ⟨hc, hs⟩ := Prod.mk.injEq _ _ _ _ ▸ (Except.ok.injEq _ _ ▸ h)
    simp [← hc, ← hs]
  | cons row rest ih =>
    intro cols sts h
    unfold prepared_rows at h
    cases hp : process_row vardf row with
    | error e => rw [hp] at h; cases h
    | ok p =>
      obtain ⟨col, st⟩ := p
      rw [hp] at h
      cases hr : prepared_rows vardf rest with
      | error e => rw [hr] at h; cases h
      | ok q =>
        obtain ⟨cols2, sts2⟩ := q
        rw [hr] at h
        obtain ⟨hok, hps⟩ := process_row_ok_inv vardf row (col, st) hp
        obtain ⟨hall, hc2, hs2⟩ := ih cols2 sts2 hr
        obtain ⟨hcol, hst⟩ := Prod.mk.injEq _ _ _ _ ▸ hps
        obtain ⟨hc, hs⟩ := Prod.mk.injEq _ _ _ _ ▸ (Except.ok.injEq _ _ ▸ h)
        constructor
        · intro r hrr
          rcases List.mem_cons.mp hrr with hEq | hMem
          · exact hEq ▸ hok
          · exact hall r hMem
        · constructor
          · rw [← hc, hc2, hcol, List.map_cons]
          · rw [← hs, hs2, hst, List.map_cons]

lemma prepared_data_ok_inv (vardf : List VarRecord) (tdf : List TargetRow)
    (M : List (List ℚ)) (ta : List ℚ) (s : ℚ)
    (hok : prepared_data vardf tdf = Except.ok (M, ta, s)) :
    (∀ row ∈ tdf, ranges_ok row) ∧
      M = tdf.map (fun row =>
            (vardf.map (row_entry row)).map (fun c => c * scale_factor)) ∧
      ta = (tdf.map scaled_target).map (fun c => c * scale_factor) ∧
      ∃ first rest, tdf = first :: rest ∧ pop_row_check first ∧
        s = first.target / national_population vardf := by
  cases tdf with
  | nil => cases hok
  | cons first rest =>
    simp only [prepared_data] at hok
    by_cases hp : pop_row_check first
    case neg => rw [if_neg hp] at hok; cases hok
    rw [if_pos hp] at hok
    cases hr : prepared_rows vardf (first :: rest) with
    | error e => rw [hr] at hok; cases hok
    | ok q =>
      obtain ⟨cols, sts⟩ := q
      rw [hr] at hok
      obtain ⟨hall, hc, hs⟩ := prepared_rows_ok_inv vardf (first :: rest) cols sts hr
      have h3 := Prod.mk.injEq _ _ _ _ ▸ (Except.ok.injEq _ _ ▸ hok)
      obtain ⟨hM, hta, hsc⟩ : M = cols.map (List.map fun c => c * scale_factor) ∧
          ta = sts.map (fun c => c * scale_factor) ∧
          s = first.target / national_population vardf := by
        obtain ⟨a, b⟩ := h3
        exact ⟨a.symm, (Prod.mk.injEq _ _ _ _ ▸ b).1.symm,
               (Prod.mk.injEq _ _ _ _ ▸ b).2.symm⟩
      refine ⟨hall, ?_, ?_, first, rest, rfl, hp, hsc⟩
      · rw [hM, hc, List.map_map]; rfl
      · rw [hta, hs]

/-! ## Claim-side formulations for the target matrix -/

/-- Mask written from the spec's words: 1 exactly when the scope condition,
the half-open income band, and the filing-status condition all hold. -/
def claim_mask (row : TargetRow) (r : VarRecord) : ℚ :=
  if (row.scope = 0 ∨ (row.scope = 1 ∧ r "data_source" = 1) ∨
        (row.scope = 2 ∧ r "data_source" = 0)) ∧
      (row.agilo ≤ r "c00100" ∧ r "c00100" < row.agihi) ∧
      (row.fstatus = 0 ∨ r "MARS" = (row.fstatus : ℚ))
  then 1 else 0

/-- Value written from the spec's words: the raw variable when `count = 0`,
the indicator of `variable > 0` when `count = 1`. -/
def claim_value (row : TargetRow) (r : VarRecord) : ℚ :=
  if row.count = 0 then r row.varname
  else if 0 < r row.varname then 1 else 0

lemma mask_val_eq_claim_mask (row : TargetRow) (r : VarRecord)
    (h : ranges_ok row) : mask_val row r = claim_mask row r := by
  obtain ⟨-, hs, hf⟩ := h
  unfold mask_val claim_mask
  have e1 : (if row.scope = 1 then (if r "data_source" = 1 then (1:ℚ) else 0)
      else if row.scope = 2 then (if r "data_source" = 0 then (1:ℚ) else 0) else 1)
      = if (row.scope = 0 ∨ (row.scope = 1 ∧ r "data_source" = 1) ∨
            (row.scope = 2 ∧ r "data_source" = 0)) then 1 else 0 := by
    have hs3 : row.scope = 0 ∨ row.scope = 1 ∨ row.scope = 2 := by omega
    rcases hs3 with h | h | h <;> rw [h] <;> simp
  have e3 : (if 0 < row.fstatus then (if r "MARS" = (row.fstatus : ℚ) then (1:ℚ) else 0)
      else 1)
      = if (row.fstatus = 0 ∨ r "MARS" = (row.fstatus : ℚ)) then 1 else 0 := by
    by_cases hp : 0 < row.fstatus
    · have hz : ¬ row.fstatus = 0 := by omega
      by_cases hm : r "MARS" = (row.fstatus : ℚ) <;> simp [hp, hm, hz]
    · have hz : row.fstatus = 0 := by omega
      simp [hp, hz]
  rw [e1, e3]
  by_cases p1 : (row.scope = 0 ∨ (row.scope = 1 ∧ r "data_source" = 1) ∨
      (row.scope = 2 ∧ r "data_source" = 0)) <;>
    by_cases p2 : (row.agilo ≤ r "c00100" ∧ r "c00100" < row.agihi) <;>
    by_cases p3 : (row.fstatus = 0 ∨ r "MARS" = (row.fstatus : ℚ)) <;>
    simp [p1, p2, p3]

/-- C3: for every target row j and record i, entry (i, j) of the target
matrix built by `prepared_data` (element i of column j) equals
mask × value × (1/t'), with the mask, value, and zero-floored target t' as
described by the spec. -/
theorem target_matrix_entry_spec (vardf : List VarRecord) (tdf : List TargetRow)
    (M : List (List ℚ)) (ta : List ℚ) (s : ℚ)
    (hok : prepared_data vardf tdf = Except.ok (M, ta, s))
    (j i : ℕ) (hj : j < tdf.length) (hi : i < vardf.length) :
    ∃ (hjm : j < M.length) (him : i < (M.get ⟨j, hjm⟩).length),
      (M.get ⟨j, hjm⟩).get ⟨i, him⟩ =
        claim_mask (tdf.get ⟨j, hj⟩) (vardf.get ⟨i, hi⟩) *
          claim_value (tdf.get ⟨j, hj⟩) (vardf.get ⟨i, hi⟩) *
          (1 / adj_target (tdf.get ⟨j, hj⟩)) := by
  obtain ⟨hall, hM, -, -⟩ := prepared_data_ok_inv vardf tdf M ta s hok
  have hjm : j < M.length := by rw [hM]; simpa using hj
  have him : i < (M.get ⟨j, hjm⟩).length := by
    subst hM
    simp only [List.get_eq_getElem, List.getElem_map, List.length_map]
    exact hi
  refine ⟨hjm, him, ?_⟩
  have hr : ranges_ok (tdf.get ⟨j, hj⟩) := hall _ (List.get_mem tdf j hj)
  subst hM
  simp only [List.get_eq_getElem, List.getElem_map]
  unfold row_entry scale_factor
  rw [mul_one]
  have hmc := mask_val_eq_claim_mask (tdf.get ⟨j, hj⟩) (vardf.get ⟨i, hi⟩) hr
  simp only [List.get_eq_getElem] at hmc
  rw [hmc]
  rfl

/-- Witness for C3: concrete one-record, one-target instance. -/
def exRecord : VarRecord :=
  fun v => if v = "s006" then 1 else if v = "XTOT" then 2 else 0

/-- Concrete population-target row used by the witnesses. -/
def exPopRow : TargetRow :=
  ⟨"XTOT", 0, 0, -(9 * 10 ^ 99), 9 * 10 ^ 99, 0, 5⟩

/-- Concrete one-record microdata table. -/
def exVardf : List VarRecord := [exRecord]

/-- Concrete one-row target table. -/
def exTdf : List TargetRow := [exPopRow]

/-- Target matrix produced by `prepared_data` on the concrete example. -/
def exM : List (List ℚ) := [[2/5]]

/-- Target array produced by `prepared_data` on the concrete example. -/
def exTa : List ℚ := [1]

lemma exPop : pop_row_check exPopRow := by
  unfold pop_row_check exPopRow
  norm_num

lemma exRanges : ∀ row ∈ [exPopRow], ranges_ok row := by
  intro row hrow
  have heq : row = exPopRow := by simpa using hrow
  subst heq
  unfold ranges_ok exPopRow
  norm_num

lemma exRecord_s006 : exRecord "s006" = 1 := by
  unfold exRecord
  rw [if_pos rfl]

lemma exRecord_XTOT : exRecord "XTOT" = 2 := by
  unfold exRecord
  rw [if_neg (by decide), if_pos rfl]

lemma exRecord_c00100 : exRecord "c00100" = 0 := by
  unfold exRecord
  rw [if_neg (by decide), if_neg (by decide)]

lemma exOk : prepared_data exVardf exTdf = Except.ok (exM, exTa, 5/2) := by
  show prepared_data exVardf (exPopRow :: []) = _
  simp only [prepared_data]
  rw [if_pos exPop, prepared_rows_eq_ok_of exVardf _ exRanges]
  simp only [exVardf, List.map_cons, List.map_nil]
  unfold exM exTa row_entry mask_val unmasked_val scaled_target
    scale_factor national_population
  norm_num [exPopRow, adj_target, exRecord_s006, exRecord_XTOT, exRecord_c00100]

/-- Witness for C3 at the concrete example, j = 0, i = 0. -/
theorem target_matrix_entry_spec_witness :
    ∃ (hjm : 0 < exM.length) (him : 0 < (exM.get ⟨0, hjm⟩).length),
      (exM.get ⟨0, hjm⟩).get ⟨0, him⟩ =
        claim_mask (exTdf.get ⟨0, by decide⟩) (exVardf.get ⟨0, by decide⟩) *
          claim_value (exTdf.get ⟨0, by decide⟩) (exVardf.get ⟨0, by decide⟩) *
          (1 / adj_target (exTdf.get ⟨0, by decide⟩)) :=
  target_matrix_entry_spec exVardf exTdf exM exTa (5/2) exOk 0 0 (by decide) (by decide)

/-- C4: every entry of the scaled target vector returned by `prepared_data`
equals exactly 1, and the zero-floored per-target denominator is never 0. -/
theorem scaled_target_vector_all_one (vardf : List VarRecord)
    (tdf : List TargetRow) (M : List (List ℚ)) (ta : List ℚ) (s : ℚ)
    (hok : prepared_data vardf tdf = Except.ok (M, ta, s)) :
    (∀ v ∈ ta, v = 1) ∧ ∀ row ∈ tdf, adj_target row ≠ 0 := by
  obtain ⟨-, -, hta, -⟩ := prepared_data_ok_inv vardf tdf M ta s hok
  have hadj : ∀ row : TargetRow, adj_target row ≠ 0 := by
    intro row
    unfold adj_target
    split_ifs with h
    · norm_num
    · exact h
  refine ⟨?_, fun row _ => hadj row⟩
  intro v hv
  subst hta
  obtain ⟨w, hw, rfl⟩ := List.mem_map.mp hv
  obtain ⟨row, hrow, rfl⟩ := List.mem_map.mp hw
  unfold scaled_target scale_factor
  rw [mul_one, mul_one_div_cancel (hadj row)]

/-- Witness for C4 at the concrete example. -/
theorem scaled_target_vector_all_one_witness :
    (∀ v ∈ exTa, v = 1) ∧ ∀ row ∈ exTdf, adj_target row ≠ 0 :=
  scaled_target_vector_all_one exVardf exTdf exM exTa (5/2) exOk

/-- C6: when the national population estimate is nonzero, the initial weight
scale computed by `prepared_data` satisfies
`scale × Σ(s006 × XTOT) = population target` exactly. -/
theorem initial_weight_scale_exact (vardf : List VarRecord) (first : TargetRow)
    (rest : List TargetRow) (M : List (List ℚ)) (ta : List ℚ) (s : ℚ)
    (hnp : national_population vardf ≠ 0)
    (hok : prepared_data vardf (first :: rest) = Except.ok (M, ta, s)) :
    s * national_population vardf = first.target := by
  obtain ⟨-, -, -, f2, r2, heq, -, hs⟩ :=
    prepared_data_ok_inv vardf (first :: rest) M ta s hok
  injection heq with h1 h2
  subst h1
  rw [hs]
  exact div_mul_cancel₀ _ hnp

/-- Witness for C6 at the concrete example: scale 5/2 times national
population 2 recovers the population target 5. -/
theorem initial_weight_scale_exact_witness :
    (5/2 : ℚ) * national_population exVardf = exPopRow.target :=
  initial_weight_scale_exact exVardf exPopRow [] exM exTa (5/2)
    (by norm_num [national_population, exVardf, exRecord_s006, exRecord_XTOT]) exOk

/-! ## Error handling of `prepared_data` (C8) -/

lemma prepared_data_isOk_iff (vardf : List VarRecord) (first : TargetRow)
    (rest : List TargetRow) :
    (prepared_data vardf (first :: rest)).isOk = true ↔
      pop_row_check first ∧ ∀ row ∈ first :: rest, ranges_ok row := by
  constructor
  · intro h
    cases hok : prepared_data vardf (first :: rest) with
    | error e => rw [hok] at h; cases h
    | ok trip =>
      obtain ⟨M, ta, s⟩ := trip
      obtain ⟨hall, -, -, f2, r2, heq, hp2, -⟩ :=
        prepared_data_ok_inv vardf (first :: rest) M ta s hok
      injection heq with h1 h2
      exact ⟨h1 ▸ hp2, hall⟩
  · rintro ⟨hp, hall⟩
    simp only [prepared_data]
    rw [if_pos hp, prepared_rows_eq_ok_of vardf _ hall]
    rfl

/-- C8: assuming a non-empty target specification (and with every referenced
variable name a total dataframe column, as in the `VarRecord` model),
`prepared_data` aborts if and only if some target row has `count` outside
{0,1}, `scope` outside {0,1,2}, or `fstatus` outside {0,...,5}, or the
distinguished population-target row (the first data row, `row_num == 2` in
the CSV file) violates the population-target convention. -/
theorem prepared_data_abort_iff (vardf : List VarRecord) (first : TargetRow)
    (rest : List TargetRow) :
    (prepared_data vardf (first :: rest)).isOk = false ↔
      (∃ row ∈ first :: rest,
        ¬((row.count = 0 ∨ row.count = 1) ∧
          (row.scope = 0 ∨ row.scope = 1 ∨ row.scope = 2) ∧
          (0 ≤ row.fstatus ∧ row.fstatus ≤ 5))) ∨
      ¬(first.varname = "XTOT" ∧ first.count = 0 ∧ first.scope = 0 ∧
        first.fstatus = 0 ∧
        first.agilo < -(8 * 10 ^ 99) ∧ 8 * 10 ^ 99 < first.agihi) := by
  have hrow : ∀ row : TargetRow,
      ((row.count = 0 ∨ row.count = 1) ∧
        (row.scope = 0 ∨ row.scope = 1 ∨ row.scope = 2) ∧
        (0 ≤ row.fstatus ∧ row.fstatus ≤ 5)) ↔ ranges_ok row := by
    intro row
    unfold ranges_ok
    omega
  have hpop : (first.varname = "XTOT" ∧ first.count = 0 ∧ first.scope = 0 ∧
      first.fstatus = 0 ∧
      first.agilo < -(8 * 10 ^ 99) ∧ 8 * 10 ^ 99 < first.agihi) ↔
      pop_row_check first := by
    unfold pop_row_check
    tauto
  have hb : (prepared_data vardf (first :: rest)).isOk = false ↔
      ¬ (prepared_data vardf (first :: rest)).isOk = true := by
    cases (prepared_data vardf (first :: rest)).isOk <;> simp
  simp only [hrow, hpop]
  rw [hb, prepared_data_isOk_iff]
  constructor
  · intro h
    rcases Classical.em (pop_row_check first) with hp | hp
    · rcases Classical.em (∀ row ∈ first :: rest, ranges_ok row) with ha | ha
      · exact absurd ⟨hp, ha⟩ h
      · left
        push_neg at ha
        exact ha
    · right
      exact hp
  · rintro (⟨row, hmem, hnr⟩ | hp) ⟨hpop2, hall⟩
    · exact hnr (hall row hmem)
    · exact hp hpop2

/-! ## Target misses (source: `target_misses`, lines 259-277)

The code computes `actual = np.dot(wght, target_matrix)`,
`tratio = actual / target_array`, and counts ratios with
`tratio < 1 - TARGET_RATIO_TOLERANCE` or `tratio >= 1 + TARGET_RATIO_TOLERANCE`.
Only the returned count is modelled; the second component of the Python
return value is a purely diagnostic formatted string. -/

/-- Tolerance constant `TARGET_RATIO_TOLERANCE = 0.0005`. -/
def TARGET_RATIO_TOLERANCE : ℚ := 5 / 10000

/-- Miss count of `target_misses` generalized over the tolerance constant;
the module constant is the only tolerance the code ever uses. -/
def target_misses_with_tol (tol : ℚ) (wght : List ℚ)
    (target_matrix : List (List ℚ)) (target_array : List ℚ) : ℕ :=
  (List.zipWith (fun a t => a / t)
      (target_matrix.map (fun col => dotprod wght col)) target_array).countP
    (fun r => decide (r < 1 - tol) || decide (1 + tol ≤ r))

/-- Embedding of `target_misses` at the code's tolerance constant. -/
def target_misses (wght : List ℚ) (target_matrix : List (List ℚ))
    (target_array : List ℚ) : ℕ :=
  target_misses_with_tol TARGET_RATIO_TOLERANCE wght target_matrix target_array

/-- Miss count written from the spec's words: the number of target indices
whose achieved/expected ratio (dot product of the weights with the target's
matrix column, divided by the target value) lies outside `[1-tol, 1+tol)`. -/
def spec_miss_count (tol : ℚ) (wght : List ℚ) (tm : List (List ℚ))
    (ta : List ℚ) : ℕ :=
  (List.range (min tm.length ta.length)).countP
    (fun j => decide (dotprod wght (tm.getD j []) / ta.getD j 0 < 1 - tol)
      || decide (1 + tol ≤ dotprod wght (tm.getD j []) / ta.getD j 0))

lemma zipWith_eq_map_range (f : ℚ → ℚ → ℚ) :
    ∀ as bs : List ℚ, List.zipWith f as bs =
      (List.range (min as.length bs.length)).map
        (fun j => f (as.getD j 0) (bs.getD j 0)) := by
  intro as
  induction as with
  | nil => intro bs; simp
  | cons a as ih =>
    intro bs
    cases bs with
    | nil => simp
    | cons b bs =>
      simp only [List.zipWith_cons_cons, List.length_cons]
      rw [ih bs]
      have hmin : min (as.length + 1) (bs.length + 1) = min as.length bs.length + 1 := by
        omega
      rw [hmin, List.range_succ_eq_map]
      simp [Function.comp, List.getD_cons_succ, List.map_map]

lemma getD_map_column (f : List ℚ → ℚ) (l : List (List ℚ)) (j : ℕ)
    (h : j < l.length) : (l.map f).getD j 0 = f (l.getD j []) := by
  rw [List.getD_eq_getElem _ _ (by simpa using h), List.getElem_map,
    List.getD_eq_getElem _ _ h]

lemma target_misses_with_tol_eq_spec (tol : ℚ) (wght : List ℚ)
    (tm : List (List ℚ)) (ta : List ℚ) :
    target_misses_with_tol tol wght tm ta = spec_miss_count tol wght tm ta := by
  unfold target_misses_with_tol spec_miss_count
  rw [zipWith_eq_map_range, List.countP_map]
  simp only [List.length_map]
  apply List.countP_congr
  intro j hj
  have hjlt : j < tm.length := by
    have := List.mem_range.mp hj
    omega
  simp only [Function.comp, getD_map_column _ _ _ hjlt]

/-- C5: for all targets nonzero, `target_misses` returns exactly the number
of targets whose achieved/expected ratio lies outside
`[1-tol, 1+tol)` at the code's tolerance, and for a fixed weight vector a
smaller tolerance never yields a smaller miss count. -/
theorem target_misses_spec (wght : List ℚ) (tm : List (List ℚ)) (ta : List ℚ)
    (htargets : ∀ t ∈ ta, t ≠ 0) :
    target_misses wght tm ta = spec_miss_count TARGET_RATIO_TOLERANCE wght tm ta ∧
    ∀ tol1 tol2 : ℚ, tol1 ≤ tol2 →
      target_misses_with_tol tol2 wght tm ta ≤
        target_misses_with_tol tol1 wght tm ta := by
  refine ⟨target_misses_with_tol_eq_spec _ _ _ _, ?_⟩
  intro tol1 tol2 h12
  unfold target_misses_with_tol
  apply List.countP_mono_left
  intro r hmem hp
  simp only [Bool.or_eq_true, decide_eq_true_eq] at hp ⊢
  rcases hp with h | h
  · left; linarith
  · right; linarith

/-- Witness for C5 at a concrete input with a single exactly-hit target. -/
theorem target_misses_spec_witness :
    target_misses [1] [[1]] [1] =
      spec_miss_count TARGET_RATIO_TOLERANCE [1] [[1]] [1] ∧
    ∀ tol1 tol2 : ℚ, tol1 ≤ tol2 →
      target_misses_with_tol tol2 [1] [[1]] [1] ≤
        target_misses_with_tol tol1 [1] [[1]] [1] :=
  target_misses_spec [1] [[1]] [1] (by norm_num)

/-! ## Regularization loop (source: `create_area_weights_file`, lines 479-520)

The external L-BFGS-B call is abstracted as an oracle `solver` taking the
initial guess `x0` and the fixed objective arguments `(A, b, delta)` and
returning a candidate multiplier vector and a convergence flag.  One loop
iteration solves, computes the miss count of `res.x * wght_us` against the
targets, and exits on zero misses or reported non-convergence; otherwise
`delta` is decremented by `DELTA_LOOP_DECREMENT` and clamped to 0 below
1e-20, and the next trial starts from the same `wght0`. -/

/-- Constant `DELTA_INIT_VALUE = 1.0e-9`. -/
def DELTA_INIT_VALUE : ℚ := 1 / 10 ^ 9

/-- Constant `DELTA_MAX_LOOPS = 5`. -/
def DELTA_MAX_LOOPS : ℕ := 5

/-- Constant `DELTA_LOOP_DECREMENT = DELTA_INIT_VALUE / (DELTA_MAX_LOOPS - 1)`. -/
def DELTA_LOOP_DECREMENT : ℚ := DELTA_INIT_VALUE / ((DELTA_MAX_LOOPS : ℚ) - 1)

/-- Result of one abstract solver call (`res.x` and `res.success`). -/
structure OptResult where
  x : List ℚ
  success : Bool

/-- Observable data of one regularization-loop iteration: the loop counter,
the `delta` passed to the solver, the initial guess passed to the solver,
the miss count of the resulting candidate, and the solver's success flag. -/
structure TrialRecord where
  loopIndex : ℕ
  delta : ℚ
  x0 : List ℚ
  misses : ℕ
  success : Bool

/-- End-of-iteration update of `delta`:
`delta -= DELTA_LOOP_DECREMENT; if delta < 1e-20: delta = 0.0`. -/
def delta_step (d : ℚ) : ℚ :=
  if d - DELTA_LOOP_DECREMENT < 1 / 10 ^ 20 then 0
  else d - DELTA_LOOP_DECREMENT

/-- The `while loop <= DELTA_MAX_LOOPS` body, with `fuel` the number of
remaining permitted iterations. -/
def delta_loop_go (solver : List ℚ → List (List ℚ) → List ℚ → ℚ → OptResult)
    (A : List (List ℚ)) (b wght_us : List ℚ)
    (tm : List (List ℚ)) (ta : List ℚ) (wght0 : List ℚ) :
    ℕ → ℕ → ℚ → List TrialRecord
  | 0, _, _ => []
  | fuel + 1, loopIdx, delta =>
    let res := solver wght0 A b delta
    let wght_area := List.zipWith (fun xi wi => xi * wi) res.x wght_us
    let misses := target_misses wght_area tm ta
    if misses = 0 ∨ res.success = false then
      [⟨loopIdx, delta, wght0, misses, res.success⟩]
    else
      ⟨loopIdx, delta, wght0, misses, res.success⟩ ::
        delta_loop_go solver A b wght_us tm ta wght0 fuel
          (loopIdx + 1) (delta_step delta)

/-- The full regularization loop: `loop = 1`, `delta = DELTA_INIT_VALUE`,
`wght0 = np.ones(num_weights)`. -/
def create_area_weights_delta_loop
    (solver : List ℚ → List (List ℚ) → List ℚ → ℚ → OptResult)
    (A : List (List ℚ)) (b wght_us : List ℚ)
    (tm : List (List ℚ)) (ta : List ℚ) (n : ℕ) : List TrialRecord :=
  delta_loop_go solver A b wght_us tm ta (List.replicate n 1)
    DELTA_MAX_LOOPS 1 DELTA_INIT_VALUE

lemma delta_loop_go_length
    (solver : List ℚ → List (List ℚ) → List ℚ → ℚ → OptResult)
    (A : List (List ℚ)) (b wght_us : List ℚ)
    (tm : List (List ℚ)) (ta : List ℚ) (wght0 : List ℚ) :
    ∀ (fuel loopIdx : ℕ) (d : ℚ),
      (delta_loop_go solver A b wght_us tm ta wght0 fuel loopIdx d).length ≤ fuel := by
  intro fuel
  induction fuel with
  | zero => intro loopIdx d; simp [delta_loop_go]
  | succ m ih =>
    intro loopIdx d
    simp only [delta_loop_go]
    split_ifs with hc
    · simp
    · simpa using Nat.succ_le_succ (ih (loopIdx + 1) (delta_step d))

lemma delta_loop_go_getElem
    (solver : List ℚ → List (List ℚ) → List ℚ → ℚ → OptResult)
    (A : List (List ℚ)) (b wght_us : List ℚ)
    (tm : List (List ℚ)) (ta : List ℚ) (wght0 : List ℚ) :
    ∀ (fuel loopIdx : ℕ) (d : ℚ) (i : ℕ) (t : TrialRecord),
      (delta_loop_go solver A b wght_us tm ta wght0 fuel loopIdx d)[i]? = some t →
      t.delta = delta_step^[i] d ∧ t.x0 = wght0 := by
  intro fuel
  induction fuel with
  | zero => intro loopIdx d i t h; simp [delta_loop_go] at h
  | succ m ih =>
    intro loopIdx d i t h
    simp only [delta_loop_go] at h
    split_ifs at h with hc
    · cases i with
      | zero =>
        rw [List.getElem?_cons_zero] at h
        injection h with h2
        subst h2
        exact ⟨rfl, rfl⟩
      | succ i2 =>
        rw [List.getElem?_cons_succ] at h
        simp at h
    · cases i with
      | zero =>
        rw [List.getElem?_cons_zero] at h
        injection h with h2
        subst h2
        exact ⟨rfl, rfl⟩
      | succ i2 =>
        rw [List.getElem?_cons_succ] at h
        rw [Function.iterate_succ_apply]
        exact ih (loopIdx + 1) (delta_step d) i2 t h

lemma delta_loop_go_not_break
    (solver : List ℚ → List (List ℚ) → List ℚ → ℚ → OptResult)
    (A : List (List ℚ)) (b wght_us : List ℚ)
    (tm : List (List ℚ)) (ta : List ℚ) (wght0 : List ℚ) :
    ∀ (fuel loopIdx : ℕ) (d : ℚ) (i : ℕ) (t t2 : TrialRecord),
      (delta_loop_go solver A b wght_us tm ta wght0 fuel loopIdx d)[i]? = some t →
      (delta_loop_go solver A b wght_us tm ta wght0 fuel loopIdx d)[i + 1]? = some t2 →
      t.misses ≠ 0 ∧ t.success = true := by
  intro fuel
  induction fuel with
  | zero => intro loopIdx d i t t2 h h2; simp [delta_loop_go] at h
  | succ m ih =>
    intro loopIdx d i t t2 h h2
    simp only [delta_loop_go] at h h2
    split_ifs at h h2 with hc
    · rw [List.getElem?_cons_succ] at h2
      simp at h2
    · push_neg at hc
      cases i with
      | zero =>
        rw [List.getElem?_cons_zero] at h
        injection h with h3
        subst h3
        exact ⟨hc.1, by simpa using hc.2⟩
      | succ i2 =>
        rw [List.getElem?_cons_succ] at h
        rw [List.getElem?_cons_succ] at h2
        exact ih (loopIdx + 1) (delta_step d) i2 t t2 h h2

lemma delta_loop_go_early_exit
    (solver : List ℚ → List (List ℚ) → List ℚ → ℚ → OptResult)
    (A : List (List ℚ)) (b wght_us : List ℚ)
    (tm : List (List ℚ)) (ta : List ℚ) (wght0 : List ℚ) :
    ∀ (fuel loopIdx : ℕ) (d : ℚ),
      (delta_loop_go solver A b wght_us tm ta wght0 fuel loopIdx d).length < fuel →
      ∃ last, (delta_loop_go solver A b wght_us tm ta wght0 fuel loopIdx d).getLast?
          = some last ∧ (last.misses = 0 ∨ last.success = false) := by
  intro fuel
  induction fuel with
  | zero => intro loopIdx d h; simp at h
  | succ m ih =>
    intro loopIdx d h
    simp only [delta_loop_go] at h ⊢
    split_ifs at h ⊢ with hc
    · exact ⟨_, rfl, hc⟩
    · have hlen :
          (delta_loop_go solver A b wght_us tm ta wght0 m (loopIdx + 1)
            (delta_step d)).length < m := by
        simpa using h
      obtain ⟨last, hl, hcond⟩ := ih (loopIdx + 1) (delta_step d) hlen
      refine ⟨last, ?_, hcond⟩
      cases hrest : delta_loop_go solver A b wght_us tm ta wght0 m (loopIdx + 1)
          (delta_step d) with
      | nil => rw [hrest] at hl; simp at hl
      | cons r rs =>
        rw [hrest] at hl
        rw [List.getLast?_cons_cons]
        exact hl

lemma delta_step_iterate (i : ℕ) (hi : i < 5) :
    delta_step^[i] DELTA_INIT_VALUE =
      DELTA_INIT_VALUE - (i : ℚ) * (DELTA_INIT_VALUE / ((DELTA_MAX_LOOPS : ℚ) - 1)) := by
  interval_cases i <;>
    norm_num [Function.iterate_succ_apply, Function.iterate_zero_apply,
      delta_step, DELTA_INIT_VALUE, DELTA_LOOP_DECREMENT, DELTA_MAX_LOOPS]

lemma delta_formula_nonneg (i : ℕ) (hi : i < 5) :
    0 ≤ DELTA_INIT_VALUE - (i : ℚ) * (DELTA_INIT_VALUE / ((DELTA_MAX_LOOPS : ℚ) - 1)) := by
  interval_cases i <;> norm_num [DELTA_INIT_VALUE, DELTA_MAX_LOOPS]

/-- C2: the regularization loop performs at most `DELTA_MAX_LOOPS = 5`
solver trials; the trial at position i (trial k = i+1) is solved at
`delta = DELTA_INIT_VALUE - i * DELTA_INIT_VALUE/(DELTA_MAX_LOOPS - 1)`,
which is never negative; every trial starts from the all-ones initial
guess; every non-final trial has a nonzero miss count and a successful
solve; and the loop stops short of the cap exactly with a final trial whose
miss count is 0 or whose solver reported non-convergence. -/
theorem delta_loop_spec
    (solver : List ℚ → List (List ℚ) → List ℚ → ℚ → OptResult)
    (A : List (List ℚ)) (b wght_us : List ℚ)
    (tm : List (List ℚ)) (ta : List ℚ) (n : ℕ)
    (trace : List TrialRecord)
    (htrace : trace = create_area_weights_delta_loop solver A b wght_us tm ta n) :
    DELTA_MAX_LOOPS = 5 ∧
    trace.length ≤ DELTA_MAX_LOOPS ∧
    (∀ (i : ℕ) (h : i < trace.length),
      (trace.get ⟨i, h⟩).delta =
          DELTA_INIT_VALUE - (i : ℚ) * (DELTA_INIT_VALUE / ((DELTA_MAX_LOOPS : ℚ) - 1)) ∧
        0 ≤ (trace.get ⟨i, h⟩).delta ∧
        (trace.get ⟨i, h⟩).x0 = List.replicate n 1) ∧
    (∀ (i : ℕ) (h : i + 1 < trace.length),
      (trace.get ⟨i, by omega⟩).misses ≠ 0 ∧
        (trace.get ⟨i, by omega⟩).success = true) ∧
    (trace.length < DELTA_MAX_LOOPS →
      ∃ last, trace.getLast? = some last ∧
        (last.misses = 0 ∨ last.success = false)) := by
  subst htrace
  unfold create_area_weights_delta_loop
  refine ⟨rfl, delta_loop_go_length solver A b wght_us tm ta _ _ _ _, ?_, ?_, ?_⟩
  · intro i h
    have hlen := delta_loop_go_length solver A b wght_us tm ta
      (List.replicate n 1) DELTA_MAX_LOOPS 1 DELTA_INIT_VALUE
    have hi : i < 5 := by
      have h5 : DELTA_MAX_LOOPS = 5 := rfl
      omega
    have hsome : (delta_loop_go solver A b wght_us tm ta (List.replicate n 1)
        DELTA_MAX_LOOPS 1 DELTA_INIT_VALUE)[i]? =
        some ((delta_loop_go solver A b wght_us tm ta (List.replicate n 1)
          DELTA_MAX_LOOPS 1 DELTA_INIT_VALUE).get ⟨i, h⟩) := by
      rw [List.get_eq_getElem]
      exact List.getElem?_eq_getElem h
    obtain ⟨hd, hx⟩ := delta_loop_go_getElem solver A b wght_us tm ta
      (List.replicate n 1) DELTA_MAX_LOOPS 1 DELTA_INIT_VALUE i _ hsome
    rw [hd, delta_step_iterate i hi]
    exact ⟨rfl, delta_formula_nonneg i hi, hx⟩
  · intro i h
    have h1 : (delta_loop_go solver A b wght_us tm ta (List.replicate n 1)
        DELTA_MAX_LOOPS 1 DELTA_INIT_VALUE)[i]? =
        some ((delta_loop_go solver A b wght_us tm ta (List.replicate n 1)
          DELTA_MAX_LOOPS 1 DELTA_INIT_VALUE).get ⟨i, by omega⟩) := by
      rw [List.get_eq_getElem]
      exact List.getElem?_eq_getElem (by omega)
    have h2 : (delta_loop_go solver A b wght_us tm ta (List.replicate n 1)
        DELTA_MAX_LOOPS 1 DELTA_INIT_VALUE)[i + 1]? =
        some ((delta_loop_go solver A b wght_us tm ta (List.replicate n 1)
          DELTA_MAX_LOOPS 1 DELTA_INIT_VALUE).get ⟨i + 1, h⟩) := by
      rw [List.get_eq_getElem]
      exact List.getElem?_eq_getElem h
    exact delta_loop_go_not_break solver A b wght_us tm ta
      (List.replicate n 1) DELTA_MAX_LOOPS 1 DELTA_INIT_VALUE i _ _ h1 h2
  · intro h
    exact delta_loop_go_early_exit solver A b wght_us tm ta
      (List.replicate n 1) DELTA_MAX_LOOPS 1 DELTA_INIT_VALUE h

/-- Trivial solver returning its initial guess with a success flag, used as
the concrete oracle for the C2 witness. -/
def constant_solver : List ℚ → List (List ℚ) → List ℚ → ℚ → OptResult :=
  fun x0 _ _ _ => ⟨x0, true⟩

/-- Witness for C2 at a concrete instance: empty data, zero records, where
the first trial has zero misses, so the loop exits early. -/
theorem delta_loop_spec_witness :
    (create_area_weights_delta_loop constant_solver [] [] [] [] [] 0).length
        ≤ DELTA_MAX_LOOPS ∧
      ∃ last,
        (create_area_weights_delta_loop constant_solver [] [] [] [] [] 0).getLast?
            = some last ∧ (last.misses = 0 ∨ last.success = false) := by
  have h := delta_loop_spec constant_solver [] [] [] [] [] 0 _ rfl
  exact ⟨h.2.1, h.2.2.2.2 (by decide)⟩

/-! ## Year extrapolation (source: `create_area_weights_file`, lines 555-566)

`weights = wght_area * 100`; then for each year from FIRST_YEAR+1 through
LAST_YEAR, `cum_pop_growth *= pop[year]/pop[year-1]` and
`wdict[year] = weights * cum_pop_growth`.  The weight file columns are
modelled as the list of (year, vector) pairs in insertion order. -/

/-- Constant `FIRST_YEAR = 2021`. -/
def FIRST_YEAR : ℕ := 2021

/-- Constant `LAST_YEAR = 2034`. -/
def LAST_YEAR : ℕ := 2034

/-- Loop body constructing the yearly columns: `cum` is the running
cumulative growth, `year` the next year to process, `n` the number of years
left. -/
def wdict_go (pop : ℕ → ℚ) (weights : List ℚ) : ℚ → ℕ → ℕ → List (ℕ × List ℚ)
  | _, _, 0 => []
  | cum, year, n + 1 =>
    let cum2 := cum * (pop year / pop (year - 1))
    (year, weights.map (fun w => w * cum2)) ::
      wdict_go pop weights cum2 (year + 1) n

/-- Embedding of the weight-file construction: the FIRST_YEAR column is the
area weight vector scaled by 100, and each later column applies the running
cumulative population-growth product. -/
def create_area_weights_wdict (pop : ℕ → ℚ) (wght_area : List ℚ) :
    List (ℕ × List ℚ) :=
  (FIRST_YEAR, wght_area.map (fun w => w * 100)) ::
    wdict_go pop (wght_area.map (fun w => w * 100)) 1 (FIRST_YEAR + 1)
      (LAST_YEAR - FIRST_YEAR)

/-- Cumulative product of year-over-year growth ratios
`Π pop[k]/pop[k-1]` for k from FIRST_YEAR+1 through t, written from the
spec. -/
def growth_prod (pop : ℕ → ℚ) (t : ℕ) : ℚ :=
  ((List.range' (FIRST_YEAR + 1) (t - FIRST_YEAR)).map
    (fun k => pop k / pop (k - 1))).prod

lemma wdict_go_getElem (pop : ℕ → ℚ) (weights : List ℚ) :
    ∀ (n : ℕ) (cum : ℚ) (year : ℕ) (i : ℕ), i < n →
      (wdict_go pop weights cum year n)[i]? =
        some (year + i, weights.map (fun w =>
          w * (cum * ((List.range' year (i + 1)).map
            (fun k => pop k / pop (k - 1))).prod))) := by
  intro n
  induction n with
  | zero => intro cum year i hi; omega
  | succ m ih =>
    intro cum year i hi
    cases i with
    | zero =>
      simp only [wdict_go, List.getElem?_cons_zero, Option.some.injEq, Prod.mk.injEq]
      refine ⟨by trivial, ?_⟩
      simp [List.range'_one]
    | succ i2 =>
      simp only [wdict_go, List.getElem?_cons_succ]
      rw [ih _ (year + 1) i2 (by omega)]
      have harr : year + 1 + i2 = year + (i2 + 1) := by omega
      have hrange : List.range' year (i2 + 1 + 1) =
          year :: List.range' (year + 1) (i2 + 1) := List.range'_succ _ _ _
      rw [harr, hrange]
      simp only [List.map_cons, List.prod_cons, Option.some.injEq, Prod.mk.injEq]
      refine ⟨by trivial, ?_⟩
      apply List.map_congr_left
      intro w _
      ring

/-- C7: the FIRST_YEAR column of the yearly weight series equals the
calibrated weight vector times 100, and for FIRST_YEAR < t ≤ LAST_YEAR the
year-t column carries year t and equals that base vector multiplied by the
cumulative product of year-over-year population growth ratios, the same
scalar applied to every record. -/
theorem year_extrapolation_spec (pop : ℕ → ℚ) (wght_area : List ℚ) :
    (create_area_weights_wdict pop wght_area)[0]? =
      some (FIRST_YEAR, wght_area.map (fun w => w * 100)) ∧
    ∀ t : ℕ, FIRST_YEAR < t → t ≤ LAST_YEAR →
      (create_area_weights_wdict pop wght_area)[t - FIRST_YEAR]? =
        some (t, (wght_area.map (fun w => w * 100)).map
          (fun w => w * growth_prod pop t)) := by
  have e1 : FIRST_YEAR = 2021 := rfl
  have e2 : LAST_YEAR = 2034 := rfl
  constructor
  · rfl
  · intro t h1 h2
    have hidx : t - FIRST_YEAR = (t - FIRST_YEAR - 1) + 1 := by omega
    rw [hidx]
    unfold create_area_weights_wdict
    rw [List.getElem?_cons_succ]
    rw [wdict_go_getElem pop _ _ 1 (FIRST_YEAR + 1) (t - FIRST_YEAR - 1) (by omega)]
    have hyear : FIRST_YEAR + 1 + (t - FIRST_YEAR - 1) = t := by omega
    have hcount : t - FIRST_YEAR - 1 + 1 = t - FIRST_YEAR := by omega
    rw [hyear, hcount]
    unfold growth_prod
    simp only [Option.some.injEq, Prod.mk.injEq, one_mul, List.map_map]

/-- Population forecast used by the C7 witness: 100, 110, 121 in the first
three years. -/
def exPopGrowth : ℕ → ℚ :=
  fun y => if y = 2021 then 100 else if y = 2022 then 110 else 121

/-- Witness for C7 at `t = 2023` with base weight vector `[1]`: the column
carries year 2023 and the growth-scaled base weight. -/
theorem year_extrapolation_spec_witness :
    (create_area_weights_wdict exPopGrowth [1])[2023 - FIRST_YEAR]? =
      some (2023, ([(1 : ℚ)].map (fun w => w * 100)).map
        (fun w => w * growth_prod exPopGrowth 2023)) :=
  (year_extrapolation_spec exPopGrowth [1]).2 2023 (by norm_num [FIRST_YEAR])
    (by norm_num [LAST_YEAR])

/-! ## Area code validation (source: `valid_area`, lines 52-157)

Python string primitives are modelled over the character list of a `String`:
slicing, `str.islower`, `str.upper`, and `int()` parsing.  Exceptions raised
by the Python code (`KeyError` from `state_info[scode]` on an unknown
upper-cased state code, `ValueError` from `int(area[2:4])` on a suffix that
does not parse as an integer) are `Except.error` results. -/

/-- The census apportionment table: state code, 2020 seats, 2010 seats. -/
def state_info : List (String × ℕ × ℕ) := [
  ("AL", 7, 7), ("AK", 1, 1), ("AZ", 9, 9), ("AR", 4, 4), ("CA", 52, 53),
  ("CO", 8, 7), ("CT", 5, 5), ("DE", 1, 1), ("FL", 28, 27), ("GA", 14, 14),
  ("HI", 2, 2), ("ID", 2, 2), ("IL", 17, 18), ("IN", 9, 9), ("IA", 4, 4),
  ("KS", 4, 4), ("KY", 6, 6), ("LA", 6, 6), ("ME", 2, 2), ("MD", 8, 8),
  ("MA", 9, 9), ("MI", 13, 14), ("MN", 8, 8), ("MS", 4, 4), ("MO", 8, 8),
  ("MT", 2, 1), ("NE", 3, 3), ("NV", 4, 4), ("NH", 2, 2), ("NJ", 12, 12),
  ("NM", 3, 3), ("NY", 26, 27), ("NC", 14, 13), ("ND", 1, 1), ("OH", 15, 16),
  ("OK", 5, 5), ("OR", 6, 5), ("PA", 17, 18), ("RI", 2, 2), ("SC", 7, 7),
  ("SD", 1, 1), ("TN", 9, 9), ("TX", 38, 36), ("UT", 4, 4), ("VT", 1, 1),
  ("VA", 11, 11), ("WA", 10, 10), ("WV", 2, 3), ("WI", 8, 8), ("WY", 1, 1),
  ("XX", 1, 1), ("YY", 1, 1), ("ZZ", 1, 1)]

/-- First `n` characters of a string (Python slice `s[0:n]`). -/
def str_take (s : String) (n : ℕ) : String := String.mk (s.data.take n)

/-- Characters of a string from position `a` through `b - 1`
(Python slice `s[a:b]`). -/
def str_slice (s : String) (a b : ℕ) : String :=
  String.mk ((s.data.drop a).take (b - a))

/-- Upper-cased string (Python `str.upper`, ASCII). -/
def str_upper (s : String) : String := String.mk (s.data.map Char.toUpper)

/-- Python `str.islower` over ASCII: at least one letter, and every letter
lower case. -/
def py_islower (s : String) : Bool :=
  s.data.any (fun c => c.isAlpha) && s.data.all (fun c => !(c.isAlpha) || c.isLower)

/-- Decimal digits to a natural number, or `none` if the (possibly empty)
character list is not all digits. -/
def digits_to_nat (cs : List Char) : Option ℕ :=
  if cs.isEmpty then none
  else if cs.all Char.isDigit then
    some (cs.foldl (fun a c => a * 10 + (c.toNat - 48)) 0)
  else none

/-- Python `int(s)` on a short string: optional surrounding whitespace,
optional sign, then decimal digits; `none` models `ValueError`. -/
def py_int (s : String) : Option ℤ :=
  let cs := (s.data.dropWhile (fun c => c.isWhitespace)).reverse.dropWhile
    (fun c => c.isWhitespace) |>.reverse
  match cs with
  | [] => none
  | c :: rest =>
    if c = '-' then (digits_to_nat rest).map (fun n => -(n : ℤ))
    else if c = '+' then (digits_to_nat rest).map (fun n => (n : ℤ))
    else (digits_to_nat (c :: rest)).map (fun n => (n : ℤ))

/-- Embedding of `valid_area`.  The two internal table assertions always
pass; a Python exception becomes an `Except.error`: `KeyError` when a
4-character area has an unknown upper-cased state code, `ValueError` when
its last two characters do not parse with `int()`. -/
def valid_area (area : String) : Except String Bool :=
  if state_info.length ≠ 53 then Except.error "AssertionError"
  else if (state_info.map (fun e => e.2.2)).sum ≠ 438 then
    Except.error "AssertionError"
  else if (state_info.map (fun e => e.2.1)).sum ≠ 438 then
    Except.error "AssertionError"
  else
    let ok_length := area.length = 2 ∨ area.length = 4
    let s_c := str_take area 2
    let scode := str_upper s_c
    let known := (state_info.lookup scode).isSome
    let all_ok := (decide ok_length) && py_islower s_c && known
    if area.length = 4 then
      match state_info.lookup scode with
      | none => Except.error "KeyError"
      | some seats =>
        if seats.2 ≤ 1 then Except.ok false
        else
          match py_int (str_slice area 2 4) with
          | none => Except.error "ValueError"
          | some cdn =>
            Except.ok (all_ok && decide (0 < cdn) && decide (cdn ≤ (seats.2 : ℤ)))
    else Except.ok all_ok

/-- C9 (failing input): on the 4-character area string `"qq01"`, whose
upper-cased state code `"QQ"` is not in the apportionment table,
`valid_area` evaluates `state_info[scode][2010]` and raises `KeyError`
instead of returning `False`, so it does not return a boolean for every
input as the claim states. -/
theorem valid_area_keyerror : valid_area "qq01" = Except.error "KeyError" := by
  rfl

/-- Model sanity check: a valid two-character state code is accepted. -/
lemma valid_area_ca_ok : valid_area "ca" = Except.ok true := by
  rfl

/-- Model sanity check: a non-integer district suffix raises `ValueError`
(Python `int("xx")`) rather than returning a boolean. -/
lemma valid_area_caxx_valueerror : valid_area "caxx" = Except.error "ValueError" := by
  rfl

/-! ## Weight positivity gate (source: `all_taxcalc_variables`, lines 160-183)

The file input and the Tax-Calculator simulation are external: the
function receives the input table and the externally computed adjusted
income array, installs the `c00100` column, and asserts
`np.all(vdf.s006 > 0)`.  The pandas length check on column assignment and
the assertion are the error paths. -/

/-- The microdata table with the `c00100` column set from the given
adjusted-income array (`vdf["c00100"] = agi`). -/
def with_agi (vdf : List VarRecord) (agi : List ℚ) : List VarRecord :=
  List.zipWith (fun r a => fun v => if v = "c00100" then a else r v) vdf agi

/-- Embedding of `all_taxcalc_variables`: set the `c00100` column from the
given array, then fail unless every record's `s006` is strictly positive. -/
def all_taxcalc_variables (vdf : List VarRecord) (agi : List ℚ) :
    Except String (List VarRecord) :=
  if vdf.length ≠ agi.length then Except.error "length mismatch"
  else if (with_agi vdf agi).all (fun r => decide (0 < r "s006")) then
    Except.ok (with_agi vdf agi)
  else Except.error "Not all weights are positive"

/-- C10: `all_taxcalc_variables` aborts whenever some record's national
weight `s006` is not strictly positive, and whenever it returns a table
every record of that table has a strictly positive `s006`. -/
theorem all_taxcalc_variables_positive (vdf : List VarRecord) (agi : List ℚ) :
    ((∃ r ∈ vdf, ¬ 0 < r "s006") →
      (all_taxcalc_variables vdf agi).isOk = false) ∧
    ∀ out, all_taxcalc_variables vdf agi = Except.ok out →
      ∀ r ∈ out, 0 < r "s006" := by
  constructor
  · rintro ⟨r, hr, hneg⟩
    unfold all_taxcalc_variables
    split_ifs with hlen hall
    · rfl
    · exfalso
      have hleq : vdf.length = agi.length := not_ne_iff.mp hlen
      obtain ⟨k, hk, hEq⟩ := List.mem_iff_getElem.mp hr
      have hk2 : k < (with_agi vdf agi).length := by
        unfold with_agi
        rw [List.length_zipWith]
        omega
      have hmem2 := List.getElem_mem hk2
      have hpos := List.all_eq_true.mp hall _ hmem2
      unfold with_agi at hpos
      rw [List.getElem_zipWith] at hpos
      simp only [decide_eq_true_eq] at hpos
      rw [if_neg (by decide)] at hpos
      rw [hEq] at hpos
      exact hneg hpos
    · rfl
  · intro out hout
    unfold all_taxcalc_variables at hout
    by_cases hlen : vdf.length ≠ agi.length
    · rw [if_pos hlen] at hout
      cases hout
    · rw [if_neg hlen] at hout
      by_cases hall : ((with_agi vdf agi).all fun r => decide (0 < r "s006")) = true
      · rw [if_pos hall] at hout
        injection hout with h
        subst h
        intro r hr
        have := List.all_eq_true.mp hall r hr
        simpa using this
      · rw [if_neg hall] at hout
        cases hout

/-- Record with zero weight, used by the C10 witness. -/
def badRecord : VarRecord := fun _ => 0

/-- Witness for C10: a table containing a record with `s006 = 0` makes
`all_taxcalc_variables` abort. -/
theorem all_taxcalc_variables_positive_witness :
    (all_taxcalc_variables [badRecord] [0]).isOk = false :=
  (all_taxcalc_variables_positive [badRecord] [0]).1
    ⟨badRecord, List.mem_singleton_self _, by norm_num [badRecord]⟩
